import Mathlib

/-!
Shallow embedding of `src/bank_system.py` (a terminal banking system over
SQLite): the `UserService` (registration, authentication) and the
`BankService` (account creation, deposit, withdraw, transfer) together with
the three tables of the schema (users, accounts, transactions).

Modelling choices:
* SQLite `REAL` amounts are modelled as exact rationals `ℚ`; floating-point
  rounding is outside the scope of the claims.
* `sqlite3.Error` exceptions raised by mutating statements are modelled by an
  explicit fault schedule `DB.faults : List Bool`: each mutating statement
  (`UPDATE`/`INSERT`) consumes one entry, and `true` means the statement
  raises (caught by the surrounding `try`, surfacing as a storage error).
  An empty schedule means no faults.  Read-only statements are assumed not
  to fault.
* `datetime.now()` timestamps, SQLite row ids of transactions, and
  `created_date` are not observable by any claim and are not modelled.
* `random`-generated account numbers are modelled by passing the generated
  number as an argument to `create_account`.
* `hashlib.sha256(...).hexdigest()` is a cryptographic primitive; it is
  modelled as an abstract function parameter `hashPassword : String → String`.
* Python's `(success, message)` return pairs are modelled as `Except Err _`,
  one `Err` constructor per distinct message/return site, following the
  error taxonomy used throughout (the `InsufficientFunds` messages
  interpolate the available amount, so that constructor carries it).
-/

namespace BankSystem

/-- A row of the `users` table (`bank_system.py`, schema lines 22-37). -/
structure User where
  id : Nat
  firstName : String
  lastName : String
  dateOfBirth : String
  street : String
  city : String
  zipCode : String
  country : String
  phoneNumber : String
  email : String
  username : String
  passwordHash : String
deriving Repr, DecidableEq

/-- A row of the `accounts` table (schema lines 40-51). -/
structure Account where
  accountNumber : String
  userId : Nat
  accountType : String
  currency : String
  balance : ℚ
  overdraftLimit : ℚ
deriving Repr, DecidableEq

/-- A row of the `transactions` table (schema lines 54-64); rows are
appended in insertion order. -/
structure Txn where
  accountNumber : String
  transactionType : String
  amount : ℚ
  description : String
deriving Repr, DecidableEq

/-- The database state: the three tables, the `AUTOINCREMENT` counter of the
`users` table, and the storage-fault schedule. -/
structure DB where
  users : List User
  accounts : List Account
  transactions : List Txn
  nextUserId : Nat
  faults : List Bool
deriving Repr, DecidableEq

/-- Error taxonomy: one constructor per distinct error return site of the
Python services. -/
inductive Err where
  | invalidAmount
  | accountNotFound
  | sourceNotFound (accountNumber : String)
  | destinationNotFound (accountNumber : String)
  | currencyMismatch
  | insufficientFunds (available : ℚ)
  | usernameTaken
  | transferFailed
  | storageError
deriving Repr, DecidableEq

/-- Consume the next entry of the fault schedule (no entry = no fault). -/
def popFault (db : DB) : Bool × DB :=
  (db.faults.headD false, { db with faults := db.faults.tail })

/-- `BankService.get_account`: `SELECT * FROM accounts WHERE account_number = ?`
(lines 207-211); the primary key makes at most one row match. -/
def get_account (db : DB) (accountNumber : String) : Option Account :=
  db.accounts.find? (fun a => a.accountNumber == accountNumber)

/-- Effect of `UPDATE accounts SET balance = balance + ? WHERE account_number = ?`
on the table: every matching row gets `delta` added to its balance. -/
def updAccounts (l : List Account) (accountNumber : String) (delta : ℚ) :
    List Account :=
  l.map fun a =>
    if a.accountNumber == accountNumber then
      { a with balance := a.balance + delta }
    else a

/-- Effect of `INSERT INTO transactions ...`: append one row. -/
def appendTxn (db : DB) (accountNumber transactionType : String) (amount : ℚ)
    (description : String) : DB :=
  { db with transactions :=
      db.transactions ++ [⟨accountNumber, transactionType, amount, description⟩] }

/-- `BankService.deposit` (lines 213-245): reject non-positive amounts, then
look the account up, `UPDATE` the balance, and `INSERT` a `DEPOSIT` row.  If
the `INSERT` raises after the `UPDATE` committed, the balance stays updated
with no row logged (the unguarded partial-write of the original). -/
def deposit (db : DB) (accountNumber : String) (amount : ℚ)
    (description : String) : Except Err Unit × DB :=
  if amount ≤ 0 then (.error .invalidAmount, db)
  else
    match get_account db accountNumber with
    | none => (.error .accountNotFound, db)
    | some _ =>
      match popFault db with
      | (true, db1) => (.error .storageError, db1)
      | (false, db1) =>
        match popFault { db1 with accounts := updAccounts db1.accounts accountNumber amount } with
        | (true, db3) => (.error .storageError, db3)
        | (false, db3) =>
          (.ok (), appendTxn db3 accountNumber "DEPOSIT" amount description)

/-- `BankService.withdraw` (lines 247-283): reject non-positive amounts, look
the account up, check `amount > balance + overdraft_limit`, then `UPDATE` the
balance down and `INSERT` a `WITHDRAWAL` row. -/
def withdraw (db : DB) (accountNumber : String) (amount : ℚ)
    (description : String) : Except Err Unit × DB :=
  if amount ≤ 0 then (.error .invalidAmount, db)
  else
    match get_account db accountNumber with
    | none => (.error .accountNotFound, db)
    | some account =>
      if account.balance + account.overdraftLimit < amount then
        (.error (.insufficientFunds (account.balance + account.overdraftLimit)), db)
      else
        match popFault db with
        | (true, db1) => (.error .storageError, db1)
        | (false, db1) =>
          match popFault { db1 with accounts := updAccounts db1.accounts accountNumber (-amount) } with
          | (true, db3) => (.error .storageError, db3)
          | (false, db3) =>
            (.ok (), appendTxn db3 accountNumber "WITHDRAWAL" amount description)

/-- `BankService.transfer` (lines 285-326): the in-order prechecks, then
withdraw from the source; on success deposit into the destination; if that
deposit fails, fire a compensating deposit back into the source *discarding
its result* (line 320: `self.deposit(from_account, amount, "Откат перевода")`
with no check) and return the generic transfer error. -/
def transfer (db : DB) (fromAccount toAccount : String) (amount : ℚ)
    (description : String) : Except Err Unit × DB :=
  if amount ≤ 0 then (.error .invalidAmount, db)
  else
    match get_account db fromAccount, get_account db toAccount with
    | none, _ => (.error (.sourceNotFound fromAccount), db)
    | some _, none => (.error (.destinationNotFound toAccount), db)
    | some fromAcc, some _toAcc =>
      if fromAcc.currency ≠ _toAcc.currency then (.error .currencyMismatch, db)
      else
        if fromAcc.balance + fromAcc.overdraftLimit < amount then
          (.error (.insufficientFunds (fromAcc.balance + fromAcc.overdraftLimit)), db)
        else
          match withdraw db fromAccount amount
              ("Перевод на счет " ++ toAccount ++ ". " ++ description) with
          | (.error e, db1) => (.error e, db1)
          | (.ok _, db1) =>
            match deposit db1 toAccount amount
                ("Перевод со счета " ++ fromAccount ++ ". " ++ description) with
            | (.ok _, db2) => (.ok (), db2)
            | (.error _, db2) =>
              match deposit db2 fromAccount amount "Откат перевода" with
              | (_, db3) => (.error .transferFailed, db3)

/-- `BankService.create_account` (lines 174-196): insert a zero-balance row
with the given values.  The generated account number is passed in (the random
draw of `generate_account_number`); a duplicate number violates the primary
key, raising like any other storage fault. -/
def create_account (db : DB) (accountNumber : String) (userId : Nat)
    (accountType currency : String) (overdraftLimit : ℚ) :
    Except Err String × DB :=
  match popFault db with
  | (true, db1) => (.error .storageError, db1)
  | (false, db1) =>
    if (get_account db1 accountNumber).isSome then (.error .storageError, db1)
    else
      (.ok accountNumber,
        { db1 with accounts := db1.accounts ++
            [⟨accountNumber, userId, accountType, currency, 0, overdraftLimit⟩] })

/-- The `user_data` dict handed to `UserService.register_user`. -/
structure RegData where
  firstName : String
  lastName : String
  dateOfBirth : String
  street : String
  city : String
  zipCode : String
  country : String
  phoneNumber : String
  email : String
  username : String
  password : String
deriving Repr, DecidableEq

/-- `UserService.register_user` (lines 100-132): check the username via
`SELECT id FROM users WHERE username = ?`, hash the password, `INSERT` the
row, return the new `lastrowid`. -/
def register_user (hashPassword : String → String) (db : DB) (d : RegData) :
    Except Err Nat × DB :=
  if (db.users.find? (fun u => u.username == d.username)).isSome then
    (.error .usernameTaken, db)
  else
    let passwordHash := hashPassword d.password
    match popFault db with
    | (true, db1) => (.error .storageError, db1)
    | (false, db1) =>
      let uid := db1.nextUserId
      (.ok uid,
        { db1 with
            users := db1.users ++
              [⟨uid, d.firstName, d.lastName, d.dateOfBirth, d.street, d.city,
                d.zipCode, d.country, d.phoneNumber, d.email, d.username,
                passwordHash⟩],
            nextUserId := uid + 1 })

/-- The summary dict returned by a successful `UserService.authenticate`. -/
structure UserSummary where
  id : Nat
  firstName : String
  lastName : String
  username : String
deriving Repr, DecidableEq

/-- `UserService.authenticate` (lines 134-156): look the user up by username;
if found, compare the hash of the supplied password with the stored hash. -/
def authenticate (hashPassword : String → String) (db : DB)
    (username password : String) : Option UserSummary :=
  match db.users.find? (fun u => u.username == username) with
  | none => none
  | some u =>
    if hashPassword password == u.passwordHash then
      some ⟨u.id, u.firstName, u.lastName, u.username⟩
    else none

/-- An operation of a deposit/withdraw trace against one account. -/
inductive Op where
  | dep (amount : ℚ) (description : String)
  | wd (amount : ℚ) (description : String)
deriving Repr, DecidableEq

/-- Run one trace operation against account `n`. -/
def applyOp (n : String) (db : DB) : Op → Except Err Unit × DB
  | .dep x d => deposit db n x d
  | .wd x d => withdraw db n x d

/-- Run a trace of operations, keeping the state of each step. -/
def runOps (db : DB) (n : String) : List Op → DB
  | [] => db
  | op :: rest => runOps (applyOp n db op).2 n rest

/-- Does every operation of the trace succeed? -/
def allOk (db : DB) (n : String) : List Op → Bool
  | [] => true
  | op :: rest =>
    match applyOp n db op with
    | (.ok _, db1) => allOk db1 n rest
    | (.error _, _) => false

/-- Sum of the deposited amounts minus the withdrawn amounts of a trace. -/
def opSum : List Op → ℚ
  | [] => 0
  | .dep x _ :: rest => x + opSum rest
  | .wd x _ :: rest => opSum rest - x

/-- Sum of the amounts of the rows of type `ty` on account `n`. -/
def rowsSum (ts : List Txn) (n ty : String) : ℚ :=
  ((ts.filter fun t => t.accountNumber == n && t.transactionType == ty).map
    Txn.amount).sum

/-- DEPOSIT rows minus WITHDRAWAL rows of account `n`. -/
def txnNet (db : DB) (n : String) : ℚ :=
  rowsSum db.transactions n "DEPOSIT" - rowsSum db.transactions n "WITHDRAWAL"

/-- The §3 account invariant: every account's balance is at least
`-overdraft_limit`. -/
def invOk (db : DB) : Prop :=
  ∀ a ∈ db.accounts, -a.overdraftLimit ≤ a.balance

/-- Well-formedness from the `accounts` primary key: account numbers are
pairwise distinct. -/
def uniqueNumbers (db : DB) : Prop :=
  (db.accounts.map Account.accountNumber).Nodup

/-- Spec-side definition for the precondition-order claim, written from the
spec's words (§4.3 `transfer`): the checks in the spec's stated order, the
first failure giving its error. -/
def specTransferFirstError (db : DB) (fromAccount toAccount : String)
    (amount : ℚ) : Option Err :=
  if amount ≤ 0 then some .invalidAmount
  else if (get_account db fromAccount).isNone then some (.sourceNotFound fromAccount)
  else if (get_account db toAccount).isNone then some (.destinationNotFound toAccount)
  else
    match get_account db fromAccount, get_account db toAccount with
    | some fromAcc, some toAcc =>
      if fromAcc.currency ≠ toAcc.currency then some .currencyMismatch
      else if fromAcc.balance + fromAcc.overdraftLimit < amount then
        some (.insufficientFunds (fromAcc.balance + fromAcc.overdraftLimit))
      else none
    | _, _ => none

/-! ### Basic lemmas about the store primitives -/

theorem popFault_nil {db : DB} (h : db.faults = []) : popFault db = (false, db) := by
  unfold popFault
  rw [h]
  show (false, { db with faults := [] }) = (false, db)
  rw [← h]

theorem popFault_cons {db : DB} {f : Bool} {rest : List Bool}
    (h : db.faults = f :: rest) : popFault db = (f, { db with faults := rest }) := by
  unfold popFault
  rw [h]
  rfl

theorem find?_updAccounts_self (l : List Account) (n : String) (d : ℚ) :
    (updAccounts l n d).find? (fun a => a.accountNumber == n) =
      (l.find? (fun a => a.accountNumber == n)).map
        (fun a => { a with balance := a.balance + d }) := by
  induction l with
  | nil => rfl
  | cons a l ih =>
    by_cases h : a.accountNumber = n
    · rw [show updAccounts (a :: l) n d =
          { a with balance := a.balance + d } :: updAccounts l n d from by
            simp [updAccounts, h]]
      rw [List.find?_cons_of_pos _ (by simp [h]),
          List.find?_cons_of_pos _ (by simp [h])]
      rfl
    · rw [show updAccounts (a :: l) n d = a :: updAccounts l n d from by
            simp [updAccounts, h]]
      rw [List.find?_cons_of_neg _ (by simp [h]),
          List.find?_cons_of_neg _ (by simp [h]), ih]

theorem find?_updAccounts_ne (l : List Account) {m n : String} (h : m ≠ n) (d : ℚ) :
    (updAccounts l n d).find? (fun a => a.accountNumber == m) =
      l.find? (fun a => a.accountNumber == m) := by
  induction l with
  | nil => rfl
  | cons a l ih =>
    by_cases h1 : a.accountNumber = n <;> by_cases h2 : a.accountNumber = m <;>
      simp_all [updAccounts, List.find?_cons]

theorem numbers_updAccounts (l : List Account) (n : String) (d : ℚ) :
    (updAccounts l n d).map Account.accountNumber = l.map Account.accountNumber := by
  induction l with
  | nil => rfl
  | cons a l ih =>
    by_cases h : a.accountNumber = n <;> simp_all [updAccounts]

theorem mem_updAccounts {l : List Account} {n : String} {d : ℚ} {b : Account}
    (hb : b ∈ updAccounts l n d) :
    ∃ a ∈ l,
      b = if a.accountNumber = n then { a with balance := a.balance + d } else a := by
  simp only [updAccounts, List.mem_map] at hb
  obtain ⟨a, ha, rfl⟩ := hb
  exact ⟨a, ha, by by_cases h : a.accountNumber = n <;> simp [h]⟩

theorem find?_unique {l : List Account} {n : String} {a0 : Account}
    (hnd : (l.map Account.accountNumber).Nodup)
    (hfind : l.find? (fun a => a.accountNumber == n) = some a0)
    {b : Account} (hb : b ∈ l) (hbn : b.accountNumber = n) : b = a0 := by
  induction l with
  | nil => simp at hfind
  | cons a l ih =>
    simp only [List.map_cons, List.nodup_cons] at hnd
    by_cases h : a.accountNumber = n
    · have hfa : List.find? (fun x => x.accountNumber == n) (a :: l) = some a :=
        List.find?_cons_of_pos _ (by simp [h])
      rw [hfa, Option.some.injEq] at hfind
      rcases List.mem_cons.mp hb with rfl | hb2
      · exact hfind
      · exfalso
        have hmem : b.accountNumber ∈ l.map Account.accountNumber :=
          List.mem_map_of_mem _ hb2
        rw [hbn, ← h] at hmem
        exact hnd.1 hmem
    · have hfa : List.find? (fun x => x.accountNumber == n) (a :: l) =
          List.find? (fun x => x.accountNumber == n) l :=
        List.find?_cons_of_neg _ (by simp [h])
      rw [hfa] at hfind
      rcases List.mem_cons.mp hb with rfl | hb2
      · exact absurd hbn h
      · exact ih hnd.2 hfind hb2

/-! ### Characterizations of the mutating operations -/

theorem deposit_ok {db : DB} {n : String} {x : ℚ} {a : Account} (d : String)
    (hx : 0 < x) (ha : get_account db n = some a) (hf : db.faults = []) :
    deposit db n x d =
      (.ok (), { db with
        accounts := updAccounts db.accounts n x,
        transactions := db.transactions ++ [⟨n, "DEPOSIT", x, d⟩] }) := by
  have hp : popFault db = (false, db) := popFault_nil hf
  have hp2 : popFault { db with accounts := updAccounts db.accounts n x } =
      (false, { db with accounts := updAccounts db.accounts n x }) := popFault_nil hf
  unfold deposit
  rw [if_neg (not_le.mpr hx), ha]
  simp only [hp, hp2]
  rfl

theorem withdraw_ok {db : DB} {n : String} {x : ℚ} {a : Account} (d : String)
    (hx : 0 < x) (ha : get_account db n = some a)
    (havail : x ≤ a.balance + a.overdraftLimit) (hf : db.faults = []) :
    withdraw db n x d =
      (.ok (), { db with
        accounts := updAccounts db.accounts n (-x),
        transactions := db.transactions ++ [⟨n, "WITHDRAWAL", x, d⟩] }) := by
  have hp : popFault db = (false, db) := popFault_nil hf
  have hp2 : popFault { db with accounts := updAccounts db.accounts n (-x) } =
      (false, { db with accounts := updAccounts db.accounts n (-x) }) := popFault_nil hf
  unfold withdraw
  rw [if_neg (not_le.mpr hx), ha]
  simp only [hp, hp2, if_neg (not_lt.mpr havail)]
  rfl

theorem deposit_ok_cons {db : DB} {n : String} {x : ℚ} {a : Account}
    {rest : List Bool} (d : String)
    (hx : 0 < x) (ha : get_account db n = some a)
    (hf : db.faults = false :: false :: rest) :
    deposit db n x d =
      (.ok (), { db with
        accounts := updAccounts db.accounts n x,
        transactions := db.transactions ++ [⟨n, "DEPOSIT", x, d⟩],
        faults := rest }) := by
  unfold deposit
  rw [if_neg (not_le.mpr hx), ha]
  simp only [popFault, hf, List.headD_cons, List.tail_cons]
  rfl

theorem withdraw_ok_cons {db : DB} {n : String} {x : ℚ} {a : Account}
    {rest : List Bool} (d : String)
    (hx : 0 < x) (ha : get_account db n = some a)
    (havail : x ≤ a.balance + a.overdraftLimit)
    (hf : db.faults = false :: false :: rest) :
    withdraw db n x d =
      (.ok (), { db with
        accounts := updAccounts db.accounts n (-x),
        transactions := db.transactions ++ [⟨n, "WITHDRAWAL", x, d⟩],
        faults := rest }) := by
  unfold withdraw
  rw [if_neg (not_le.mpr hx), ha]
  simp only [popFault, hf, List.headD_cons, List.tail_cons,
    if_neg (not_lt.mpr havail)]
  rfl

theorem deposit_fault1 {db : DB} {n : String} {x : ℚ} {a : Account}
    {rest : List Bool} (d : String)
    (hx : 0 < x) (ha : get_account db n = some a)
    (hf : db.faults = true :: rest) :
    deposit db n x d = (.error .storageError, { db with faults := rest }) := by
  unfold deposit
  rw [if_neg (not_le.mpr hx), ha]
  simp only [popFault, hf, List.headD_cons, List.tail_cons]

theorem transfer_ok {db : DB} {a b : String} {A B : Account} {X : ℚ} (d : String)
    (hab : a ≠ b) (hA : get_account db a = some A) (hB : get_account db b = some B)
    (hcur : A.currency = B.currency) (hXpos : 0 < X)
    (hXle : X ≤ A.balance + A.overdraftLimit) (hf : db.faults = []) :
    transfer db a b X d =
      (.ok (), { db with
        accounts := updAccounts (updAccounts db.accounts a (-X)) b X,
        transactions := db.transactions ++
          [⟨a, "WITHDRAWAL", X, "Перевод на счет " ++ b ++ ". " ++ d⟩,
           ⟨b, "DEPOSIT", X, "Перевод со счета " ++ a ++ ". " ++ d⟩] }) := by
  have hb_ne_a : b ≠ a := fun h => hab h.symm
  have hw := withdraw_ok (a := A) ("Перевод на счет " ++ b ++ ". " ++ d) hXpos hA hXle hf
  have hB1 : get_account { db with
      accounts := updAccounts db.accounts a (-X),
      transactions := db.transactions ++
        [⟨a, "WITHDRAWAL", X, "Перевод на счет " ++ b ++ ". " ++ d⟩] } b = some B := by
    show (updAccounts db.accounts a (-X)).find? (fun x => x.accountNumber == b) = some B
    rw [find?_updAccounts_ne _ hb_ne_a]
    exact hB
  have hd := deposit_ok (a := B) ("Перевод со счета " ++ a ++ ". " ++ d) hXpos hB1 hf
  unfold transfer
  rw [if_neg (not_le.mpr hXpos), hA, hB]
  dsimp only
  rw [if_neg (show ¬ A.currency ≠ B.currency from not_not_intro hcur),
      if_neg (not_lt.mpr hXle), hw]
  dsimp only
  rw [hd]
  dsimp only
  simp [appendTxn, List.append_assoc]

/-! ### Claim C1 -/

/-- C1: for every pair of distinct accounts `A` (number `a`) and `B` (number
`b`) with the same currency and every amount `0 < X ≤ A.balance +
A.overdraftLimit`, a successful (fault-free) `transfer` decreases `A`'s
balance by exactly `X`, increases `B`'s balance by exactly `X`, appends
exactly two transaction rows — one WITHDRAWAL on `a` and one DEPOSIT on `b`,
both of amount `X` — and changes no other account, no other transaction row,
and no user row. -/
theorem transfer_success_spec
    (db : DB) (a b : String) (A B : Account) (X : ℚ) (d : String)
    (hab : a ≠ b)
    (hA : get_account db a = some A) (hB : get_account db b = some B)
    (hcur : A.currency = B.currency)
    (hXpos : 0 < X) (hXle : X ≤ A.balance + A.overdraftLimit)
    (hf : db.faults = []) :
    (transfer db a b X d).1 = .ok () ∧
    get_account (transfer db a b X d).2 a = some { A with balance := A.balance - X } ∧
    get_account (transfer db a b X d).2 b = some { B with balance := B.balance + X } ∧
    (transfer db a b X d).2.transactions = db.transactions ++
      [⟨a, "WITHDRAWAL", X, "Перевод на счет " ++ b ++ ". " ++ d⟩,
       ⟨b, "DEPOSIT", X, "Перевод со счета " ++ a ++ ". " ++ d⟩] ∧
    (∀ c, c ≠ a → c ≠ b → get_account (transfer db a b X d).2 c = get_account db c) ∧
    (transfer db a b X d).2.users = db.users := by
  have ht := transfer_ok d hab hA hB hcur hXpos hXle hf
  have hA' : db.accounts.find? (fun x => x.accountNumber == a) = some A := hA
  have hB' : db.accounts.find? (fun x => x.accountNumber == b) = some B := hB
  rw [ht]
  refine ⟨rfl, ?_, ?_, rfl, ?_, rfl⟩
  · show (updAccounts (updAccounts db.accounts a (-X)) b X).find?
        (fun x => x.accountNumber == a) = _
    rw [find?_updAccounts_ne _ hab, find?_updAccounts_self, hA']
    simp [sub_eq_add_neg]
  · show (updAccounts (updAccounts db.accounts a (-X)) b X).find?
        (fun x => x.accountNumber == b) = _
    rw [find?_updAccounts_self, find?_updAccounts_ne _ (fun h => hab h.symm), hB']
    rfl
  · intro c hca hcb
    show (updAccounts (updAccounts db.accounts a (-X)) b X).find?
        (fun x => x.accountNumber == c) = _
    rw [find?_updAccounts_ne _ hcb, find?_updAccounts_ne _ hca]
    rfl

/-- Witness for C1: a concrete fault-free transfer of 40 from an account with
balance 100 to a same-currency account with balance 5. -/
theorem transfer_success_spec_witness :
    (transfer ⟨[], [⟨"A1", 1, "Checking", "RUB", 100, 0⟩,
        ⟨"B1", 2, "Savings", "RUB", 5, 0⟩], [], 1, []⟩ "A1" "B1" 40 "x").1 = .ok () ∧
    get_account (transfer ⟨[], [⟨"A1", 1, "Checking", "RUB", 100, 0⟩,
        ⟨"B1", 2, "Savings", "RUB", 5, 0⟩], [], 1, []⟩ "A1" "B1" 40 "x").2 "A1" =
      some ⟨"A1", 1, "Checking", "RUB", 60, 0⟩ ∧
    get_account (transfer ⟨[], [⟨"A1", 1, "Checking", "RUB", 100, 0⟩,
        ⟨"B1", 2, "Savings", "RUB", 5, 0⟩], [], 1, []⟩ "A1" "B1" 40 "x").2 "B1" =
      some ⟨"B1", 2, "Savings", "RUB", 45, 0⟩ := by
  have h := transfer_success_spec
    (⟨[], [⟨"A1", 1, "Checking", "RUB", 100, 0⟩,
        ⟨"B1", 2, "Savings", "RUB", 5, 0⟩], [], 1, []⟩ : DB)
    "A1" "B1" ⟨"A1", 1, "Checking", "RUB", 100, 0⟩ ⟨"B1", 2, "Savings", "RUB", 5, 0⟩
    40 "x" (by decide) rfl rfl rfl (by norm_num) (by norm_num) rfl
  refine ⟨h.1, ?_, ?_⟩
  · have h2 := h.2.1
    norm_num at h2 ⊢
    exact h2
  · have h3 := h.2.2.1
    norm_num at h3 ⊢
    exact h3

/-! ### Claim C9 -/

/-- C9: self-transfer is permitted: for every account `A` (number `a`) and
every amount `0 < X ≤ A.balance + A.overdraftLimit`, a fault-free
`transfer a a X` succeeds (the currency check trivially passes), leaves the
account unchanged — the withdrawal and the deposit cancel — and appends
exactly two transaction rows on `a`: one WITHDRAWAL of `X` and one DEPOSIT of
`X`. -/
theorem self_transfer_spec
    (db : DB) (a : String) (A : Account) (X : ℚ) (d : String)
    (hA : get_account db a = some A) (hXpos : 0 < X)
    (hXle : X ≤ A.balance + A.overdraftLimit) (hf : db.faults = []) :
    (transfer db a a X d).1 = .ok () ∧
    get_account (transfer db a a X d).2 a = some A ∧
    (transfer db a a X d).2.transactions = db.transactions ++
      [⟨a, "WITHDRAWAL", X, "Перевод на счет " ++ a ++ ". " ++ d⟩,
       ⟨a, "DEPOSIT", X, "Перевод со счета " ++ a ++ ". " ++ d⟩] ∧
    (∀ c, c ≠ a → get_account (transfer db a a X d).2 c = get_account db c) ∧
    (transfer db a a X d).2.users = db.users := by
  have hA' : db.accounts.find? (fun x => x.accountNumber == a) = some A := hA
  have hw := withdraw_ok (a := A) ("Перевод на счет " ++ a ++ ". " ++ d) hXpos hA hXle hf
  have hA1 : get_account { db with
      accounts := updAccounts db.accounts a (-X),
      transactions := db.transactions ++
        [⟨a, "WITHDRAWAL", X, "Перевод на счет " ++ a ++ ". " ++ d⟩] } a =
      some { A with balance := A.balance + -X } := by
    show (updAccounts db.accounts a (-X)).find? (fun x => x.accountNumber == a) = _
    rw [find?_updAccounts_self, hA']
    rfl
  have hd := deposit_ok (a := { A with balance := A.balance + -X })
      ("Перевод со счета " ++ a ++ ". " ++ d) hXpos hA1 hf
  have ht : transfer db a a X d =
      (.ok (), { db with
        accounts := updAccounts (updAccounts db.accounts a (-X)) a X,
        transactions := db.transactions ++
          [⟨a, "WITHDRAWAL", X, "Перевод на счет " ++ a ++ ". " ++ d⟩,
           ⟨a, "DEPOSIT", X, "Перевод со счета " ++ a ++ ". " ++ d⟩] }) := by
    unfold transfer
    rw [if_neg (not_le.mpr hXpos), hA]
    dsimp only
    rw [if_neg (show ¬ A.currency ≠ A.currency from not_not_intro rfl),
        if_neg (not_lt.mpr hXle), hw]
    dsimp only
    rw [hd]
    dsimp only
    simp [appendTxn, List.append_assoc]
  rw [ht]
  refine ⟨rfl, ?_, rfl, ?_, rfl⟩
  · show (updAccounts (updAccounts db.accounts a (-X)) a X).find?
        (fun x => x.accountNumber == a) = _
    rw [find?_updAccounts_self, find?_updAccounts_self, hA']
    show some { A with balance := A.balance + -X + X } = some A
    rw [show A.balance + -X + X = A.balance by ring]
  · intro c hca
    show (updAccounts (updAccounts db.accounts a (-X)) a X).find?
        (fun x => x.accountNumber == c) = _
    rw [find?_updAccounts_ne _ hca, find?_updAccounts_ne _ hca]
    rfl

/-- Witness for C9: a concrete self-transfer of 7 on an account with balance
50 succeeds and leaves the account unchanged. -/
theorem self_transfer_spec_witness :
    (transfer ⟨[], [⟨"A1", 1, "Checking", "RUB", 50, 0⟩], [], 1, []⟩
        "A1" "A1" 7 "y").1 = .ok () ∧
    get_account (transfer ⟨[], [⟨"A1", 1, "Checking", "RUB", 50, 0⟩], [], 1, []⟩
        "A1" "A1" 7 "y").2 "A1" = some ⟨"A1", 1, "Checking", "RUB", 50, 0⟩ ∧
    (transfer ⟨[], [⟨"A1", 1, "Checking", "RUB", 50, 0⟩], [], 1, []⟩
        "A1" "A1" 7 "y").2.transactions =
      [⟨"A1", "WITHDRAWAL", 7, "Перевод на счет A1. y"⟩,
       ⟨"A1", "DEPOSIT", 7, "Перевод со счета A1. y"⟩] := by
  have h := self_transfer_spec
    (⟨[], [⟨"A1", 1, "Checking", "RUB", 50, 0⟩], [], 1, []⟩ : DB)
    "A1" ⟨"A1", 1, "Checking", "RUB", 50, 0⟩ 7 "y" rfl (by norm_num) (by norm_num) rfl
  exact ⟨h.1, h.2.1, h.2.2.1⟩

/-! ### Claim C3 -/

/-- C3: `transfer` checks its preconditions in the spec's exact order —
amount positive, source exists, destination exists, currencies equal,
sufficient available funds — and whenever the spec-side first-failure
function (written from the spec's words) reports an error, `transfer`
returns exactly that error together with the *unchanged* database: zero
balance changes and zero appended transaction rows. -/
theorem transfer_precondition_order
    (db : DB) (a b : String) (X : ℚ) (d : String) (e : Err)
    (he : specTransferFirstError db a b X = some e) :
    transfer db a b X d = (.error e, db) := by
  unfold specTransferFirstError at he
  unfold transfer
  by_cases h0 : X ≤ 0
  · rw [if_pos h0] at he ⊢
    injection he with he
    rw [← he]
  · rw [if_neg h0] at he ⊢
    cases hga : get_account db a with
    | none =>
      rw [hga] at he
      simp only [Option.isNone_none, if_true] at he
      injection he with he
      cases hgb : get_account db b with
      | none =>
        rw [← he]
      | some B =>
        rw [← he]
    | some A =>
      rw [hga] at he
      simp only [Option.isNone_some, Bool.false_eq_true, if_false] at he
      cases hgb : get_account db b with
      | none =>
        rw [hgb] at he
        simp only [Option.isNone_none, if_true] at he
        injection he with he
        rw [← he]
      | some B =>
        rw [hgb] at he
        simp only [Option.isNone_some, Bool.false_eq_true, if_false] at he
        dsimp only at he ⊢
        by_cases hc : A.currency ≠ B.currency
        · rw [if_pos hc] at he ⊢
          injection he with he
          rw [← he]
        · rw [if_neg hc] at he ⊢
          by_cases hav : A.balance + A.overdraftLimit < X
          · rw [if_pos hav] at he ⊢
            injection he with he
            rw [← he]
          · rw [if_neg hav] at he
            simp at he

/-- Witness for C3: a concrete cross-currency transfer fails with
`CurrencyMismatch` and leaves the database untouched. -/
theorem transfer_precondition_order_witness :
    transfer ⟨[], [⟨"A1", 1, "Checking", "RUB", 100, 0⟩,
        ⟨"B1", 2, "Savings", "USD", 5, 0⟩], [], 1, []⟩ "A1" "B1" 10 "z" =
      (.error .currencyMismatch,
        ⟨[], [⟨"A1", 1, "Checking", "RUB", 100, 0⟩,
          ⟨"B1", 2, "Savings", "USD", 5, 0⟩], [], 1, []⟩) :=
  transfer_precondition_order
    (⟨[], [⟨"A1", 1, "Checking", "RUB", 100, 0⟩,
      ⟨"B1", 2, "Savings", "USD", 5, 0⟩], [], 1, []⟩ : DB)
    "A1" "B1" 10 "z" .currencyMismatch (by decide)

/-! ### Claim C4 -/

/-- C4: `withdraw` on an existing account fails with `InsufficientFunds`
reporting the available amount `balance + overdraft_limit` whenever the
amount exceeds it, leaving the database untouched; it succeeds (fault-free)
whenever `0 < X ≤ balance + overdraft_limit` — equality included — removing
exactly `X` and appending exactly one WITHDRAWAL row; a non-positive amount
fails with `InvalidAmount` and a nonexistent account with `AccountNotFound`,
each with no state change. -/
theorem withdraw_spec (db : DB) (n : String) (X : ℚ) (d : String) :
    (X ≤ 0 → withdraw db n X d = (.error .invalidAmount, db)) ∧
    (0 < X → get_account db n = none →
      withdraw db n X d = (.error .accountNotFound, db)) ∧
    (∀ A, get_account db n = some A → 0 < X → A.balance + A.overdraftLimit < X →
      withdraw db n X d =
        (.error (.insufficientFunds (A.balance + A.overdraftLimit)), db)) ∧
    (∀ A, get_account db n = some A → 0 < X → X ≤ A.balance + A.overdraftLimit →
      db.faults = [] →
      withdraw db n X d = (.ok (), { db with
        accounts := updAccounts db.accounts n (-X),
        transactions := db.transactions ++ [⟨n, "WITHDRAWAL", X, d⟩] })) := by
  refine ⟨?_, ?_, ?_, ?_⟩
  · intro h
    unfold withdraw
    rw [if_pos h]
  · intro h0 hga
    unfold withdraw
    rw [if_neg (not_le.mpr h0), hga]
  · intro A hga h0 hlt
    unfold withdraw
    rw [if_neg (not_le.mpr h0), hga]
    dsimp only
    rw [if_pos hlt]
  · intro A hga h0 hle hf
    exact withdraw_ok d h0 hga hle hf

/-- Witness for C4, on the spec's own scenario account (balance −2000,
overdraft limit 5000): withdrawing 3001 fails with `InsufficientFunds 3000`
and no state change, while withdrawing exactly the available 3000
succeeds. -/
theorem withdraw_spec_witness :
    withdraw ⟨[], [⟨"A1", 1, "Checking", "RUB", -2000, 5000⟩], [], 1, []⟩ "A1" 3001 "w" =
      (.error (.insufficientFunds 3000),
        ⟨[], [⟨"A1", 1, "Checking", "RUB", -2000, 5000⟩], [], 1, []⟩) ∧
    withdraw ⟨[], [⟨"A1", 1, "Checking", "RUB", -2000, 5000⟩], [], 1, []⟩ "A1" 3000 "w" =
      (.ok (), ⟨[], [⟨"A1", 1, "Checking", "RUB", -5000, 5000⟩],
        [⟨"A1", "WITHDRAWAL", 3000, "w"⟩], 1, []⟩) := by
  constructor
  · have h := (withdraw_spec ⟨[], [⟨"A1", 1, "Checking", "RUB", -2000, 5000⟩], [], 1, []⟩
      "A1" 3001 "w").2.2.1 ⟨"A1", 1, "Checking", "RUB", -2000, 5000⟩ rfl
      (by norm_num) (by norm_num)
    norm_num at h
    exact h
  · have h := (withdraw_spec ⟨[], [⟨"A1", 1, "Checking", "RUB", -2000, 5000⟩], [], 1, []⟩
      "A1" 3000 "w").2.2.2 ⟨"A1", 1, "Checking", "RUB", -2000, 5000⟩ rfl
      (by norm_num) (by norm_num) rfl
    norm_num [updAccounts] at h
    exact h

/-! ### Claim C10 -/

/-- C10: `create_account` validates nothing: for every user id, every
account-type string (also outside Checking/Savings/Deposit), every currency
string, and every overdraft limit including negative values, it succeeds
(absent a storage failure, here: fresh number and no fault) and records
exactly the given values with balance 0 — and with a negative overdraft
limit the freshly created account already violates
`balance ≥ -overdraft_limit`. -/
theorem create_account_no_validation
    (db : DB) (n : String) (uid : Nat) (ty cur : String) (od : ℚ)
    (hfresh : get_account db n = none) (hf : db.faults = []) :
    create_account db n uid ty cur od =
      (.ok n, { db with accounts := db.accounts ++ [⟨n, uid, ty, cur, 0, od⟩] }) ∧
    (od < 0 → ¬ invOk (create_account db n uid ty cur od).2) := by
  have hp : popFault db = (false, db) := popFault_nil hf
  have h1 : create_account db n uid ty cur od =
      (.ok n, { db with accounts := db.accounts ++ [⟨n, uid, ty, cur, 0, od⟩] }) := by
    unfold create_account
    rw [hp]
    dsimp only
    rw [hfresh]
    rfl
  refine ⟨h1, fun hod hinv => ?_⟩
  rw [h1] at hinv
  have hmem : (⟨n, uid, ty, cur, 0, od⟩ : Account) ∈
      db.accounts ++ [⟨n, uid, ty, cur, 0, od⟩] := by simp
  have h2 : -od ≤ (0 : ℚ) := hinv _ hmem
  linarith

/-- Witness for C10: creating an account of unknown type `Gold`, currency
`XYZ` and negative overdraft limit −5 succeeds and records those values, and
the new account violates the balance invariant. -/
theorem create_account_no_validation_witness :
    create_account ⟨[], [], [], 1, []⟩ "X9" 7 "Gold" "XYZ" (-5) =
      (.ok "X9", ⟨[], [⟨"X9", 7, "Gold", "XYZ", 0, -5⟩], [], 1, []⟩) ∧
    ¬ invOk (create_account ⟨[], [], [], 1, []⟩ "X9" 7 "Gold" "XYZ" (-5)).2 := by
  have h := create_account_no_validation ⟨[], [], [], 1, []⟩ "X9" 7 "Gold" "XYZ" (-5)
    rfl rfl
  exact ⟨h.1, h.2 (by norm_num)⟩

/-! ### Claim C7 -/

/-- C7: `authenticate` returns the user summary (id, first name, last name,
username) exactly when a user with the given username is found and the hash
of the supplied password equals the stored hash; in every other case —
username not present, or present with a non-matching password — it returns
the same `none` value, so the two failure causes are indistinguishable from
the returned result. -/
theorem authenticate_spec (hash : String → String) (db : DB) (un pw : String) :
    (∀ s, authenticate hash db un pw = some s ↔
      ∃ u, db.users.find? (fun v => v.username == un) = some u ∧
        hash pw = u.passwordHash ∧
        s = ⟨u.id, u.firstName, u.lastName, u.username⟩) ∧
    (db.users.find? (fun v => v.username == un) = none →
      authenticate hash db un pw = none) ∧
    (∀ u, db.users.find? (fun v => v.username == un) = some u →
      hash pw ≠ u.passwordHash → authenticate hash db un pw = none) := by
  refine ⟨?_, ?_, ?_⟩
  · intro s
    unfold authenticate
    cases hfind : db.users.find? fun v => v.username == un with
    | none => simp
    | some u =>
      dsimp only
      by_cases hh : hash pw = u.passwordHash
      · rw [if_pos (by simp [hh])]
        constructor
        · intro hs
          exact ⟨u, rfl, hh, (Option.some.inj hs).symm⟩
        · rintro ⟨u', hu', _, rfl⟩
          obtain rfl := Option.some.inj hu'
          rfl
      · rw [if_neg (by simp [hh])]
        constructor
        · intro hs
          simp at hs
        · rintro ⟨u', hu', hh', rfl⟩
          obtain rfl := Option.some.inj hu'
          exact absurd hh' hh
  · intro hnone
    unfold authenticate
    rw [hnone]
  · intro u hfind hh
    unfold authenticate
    rw [hfind]
    dsimp only
    rw [if_neg (by simp [hh])]

/-- Witness for C7: with the identity as the (abstract) hash, a stored user
`ivanov` authenticates with the right password, while a wrong password and a
nonexistent username both yield the same `none`. -/
theorem authenticate_spec_witness :
    authenticate id ⟨[⟨1, "Ivan", "Ivanov", "d", "s", "c", "z", "co", "p", "e",
        "ivanov", "password123"⟩], [], [], 2, []⟩ "ivanov" "password123" =
      some ⟨1, "Ivan", "Ivanov", "ivanov"⟩ ∧
    authenticate id ⟨[⟨1, "Ivan", "Ivanov", "d", "s", "c", "z", "co", "p", "e",
        "ivanov", "password123"⟩], [], [], 2, []⟩ "ivanov" "wrong" = none ∧
    authenticate id ⟨[⟨1, "Ivan", "Ivanov", "d", "s", "c", "z", "co", "p", "e",
        "ivanov", "password123"⟩], [], [], 2, []⟩ "nobody" "password123" = none := by
  refine ⟨?_, ?_, ?_⟩
  · exact ((authenticate_spec id ⟨[⟨1, "Ivan", "Ivanov", "d", "s", "c", "z", "co",
      "p", "e", "ivanov", "password123"⟩], [], [], 2, []⟩ "ivanov" "password123").1
      ⟨1, "Ivan", "Ivanov", "ivanov"⟩).mpr
      ⟨⟨1, "Ivan", "Ivanov", "d", "s", "c", "z", "co", "p", "e", "ivanov",
        "password123"⟩, rfl, rfl, rfl⟩
  · exact (authenticate_spec id ⟨[⟨1, "Ivan", "Ivanov", "d", "s", "c", "z", "co",
      "p", "e", "ivanov", "password123"⟩], [], [], 2, []⟩ "ivanov" "wrong").2.2
      ⟨1, "Ivan", "Ivanov", "d", "s", "c", "z", "co", "p", "e", "ivanov",
        "password123"⟩ rfl (by decide)
  · exact (authenticate_spec id ⟨[⟨1, "Ivan", "Ivanov", "d", "s", "c", "z", "co",
      "p", "e", "ivanov", "password123"⟩], [], [], 2, []⟩ "nobody"
      "password123").2.1 rfl

/-! ### Claim C8 -/

theorem find?_username_isSome {l : List User} {un : String}
    (h : ∃ u ∈ l, u.username = un) :
    (l.find? (fun u => u.username == un)).isSome = true := by
  cases hfind : l.find? (fun u => u.username == un) with
  | some u => rfl
  | none =>
    obtain ⟨u, hu, hun⟩ := h
    have := List.find?_eq_none.mp hfind u hu
    simp [hun] at this

theorem register_user_ok (hash : String → String) {db : DB} (d : RegData)
    (hnone : db.users.find? (fun u => u.username == d.username) = none)
    (hf : db.faults = []) :
    register_user hash db d = (.ok db.nextUserId,
      { db with
        users := db.users ++ [⟨db.nextUserId, d.firstName, d.lastName,
          d.dateOfBirth, d.street, d.city, d.zipCode, d.country,
          d.phoneNumber, d.email, d.username, hash d.password⟩],
        nextUserId := db.nextUserId + 1 }) := by
  unfold register_user
  rw [hnone]
  simp only [Option.isSome_none, Bool.false_eq_true, if_false]
  rw [popFault_nil hf]

/-- C8: when a user with the requested username already exists,
`register_user` fails with `UsernameTaken` and inserts nothing; on success
the row stores the profile fields plus only the one-way hash of the password
(never the plaintext); registering the same username twice therefore makes
the second call fail with `UsernameTaken` with no state change, and exactly
one user row with that username exists afterward. -/
theorem register_user_spec (hash : String → String) (db : DB) (d d' : RegData) :
    ((∃ u ∈ db.users, u.username = d.username) →
      register_user hash db d = (.error .usernameTaken, db)) ∧
    (db.users.find? (fun u => u.username == d.username) = none → db.faults = [] →
      register_user hash db d = (.ok db.nextUserId,
        { db with
          users := db.users ++ [⟨db.nextUserId, d.firstName, d.lastName,
            d.dateOfBirth, d.street, d.city, d.zipCode, d.country,
            d.phoneNumber, d.email, d.username, hash d.password⟩],
          nextUserId := db.nextUserId + 1 })) ∧
    ((∀ u ∈ db.users, u.username ≠ d.username) → db.faults = [] →
      d'.username = d.username →
      register_user hash (register_user hash db d).2 d' =
        (.error .usernameTaken, (register_user hash db d).2) ∧
      ((register_user hash db d).2.users.filter
        (fun u => u.username == d.username)).length = 1) := by
  refine ⟨?_, ?_, ?_⟩
  · rintro ⟨u, hu, hun⟩
    unfold register_user
    rw [if_pos (find?_username_isSome ⟨u, hu, hun⟩)]
  · intro hnone hf
    exact register_user_ok hash d hnone hf
  · intro hall hf hd'
    have hnone : db.users.find? (fun u => u.username == d.username) = none :=
      List.find?_eq_none.mpr fun u hu => by simp [hall u hu]
    have hreg := register_user_ok hash d hnone hf
    rw [hreg]
    constructor
    · show register_user hash _ d' = _
      unfold register_user
      rw [if_pos (find?_username_isSome
        ⟨⟨db.nextUserId, d.firstName, d.lastName, d.dateOfBirth, d.street,
          d.city, d.zipCode, d.country, d.phoneNumber, d.email, d.username,
          hash d.password⟩, by simp, by simp [hd']⟩)]
    · show ((db.users ++ [(⟨db.nextUserId, d.firstName, d.lastName, d.dateOfBirth,
          d.street, d.city, d.zipCode, d.country, d.phoneNumber, d.email,
          d.username, hash d.password⟩ : User)]).filter
        (fun u => u.username == d.username)).length = 1
      rw [List.filter_append]
      have h1 : db.users.filter (fun u => u.username == d.username) = [] :=
        List.filter_eq_nil_iff.mpr fun u hu => by simp [hall u hu]
      rw [h1]
      simp

/-- Witness for C8: registering `ivanov` into an empty store succeeds;
registering `ivanov` again fails with `UsernameTaken`, changes nothing, and
exactly one `ivanov` row exists. -/
theorem register_user_spec_witness :
    register_user id
      (register_user id ⟨[], [], [], 1, []⟩
        ⟨"I", "Iv", "d", "s", "c", "z", "co", "p", "e", "ivanov", "pw"⟩).2
      ⟨"I", "Iv", "d", "s", "c", "z", "co", "p", "e", "ivanov", "pw"⟩ =
      (.error .usernameTaken,
        (register_user id ⟨[], [], [], 1, []⟩
          ⟨"I", "Iv", "d", "s", "c", "z", "co", "p", "e", "ivanov", "pw"⟩).2) ∧
    ((register_user id ⟨[], [], [], 1, []⟩
        ⟨"I", "Iv", "d", "s", "c", "z", "co", "p", "e", "ivanov", "pw"⟩).2.users.filter
      (fun u => u.username == "ivanov")).length = 1 := by
  have h := (register_user_spec id ⟨[], [], [], 1, []⟩
    ⟨"I", "Iv", "d", "s", "c", "z", "co", "p", "e", "ivanov", "pw"⟩
    ⟨"I", "Iv", "d", "s", "c", "z", "co", "p", "e", "ivanov", "pw"⟩).2.2
    (by simp) rfl rfl
  exact h

/-! ### Claim C2 -/

/-- C2 (refuting the claim on the code): in the partial-failure execution
where the withdrawal from the source succeeds, the deposit into the
destination fails, and the compensating deposit back into the source *also*
fails (fault schedule `[false, false, true, true]`), `transfer` returns only
the generic `transferFailed` — the `Err` taxonomy of the code has no
compensation-failure case at all — while the source has irrecoverably lost
the amount and the destination got nothing; and the very same
`transferFailed` value is returned when the compensating deposit succeeds
(schedule `[false, false, true, false]`), so the compensation's own failure
is invisible to the caller. -/
theorem transfer_compensation_failure_swallowed :
    (transfer ⟨[], [⟨"A1", 1, "Checking", "RUB", 100, 0⟩,
        ⟨"B1", 2, "Checking", "RUB", 0, 0⟩], [], 1,
        [false, false, true, true]⟩ "A1" "B1" 40 "").1 = .error .transferFailed ∧
    (get_account (transfer ⟨[], [⟨"A1", 1, "Checking", "RUB", 100, 0⟩,
        ⟨"B1", 2, "Checking", "RUB", 0, 0⟩], [], 1,
        [false, false, true, true]⟩ "A1" "B1" 40 "").2 "A1").map Account.balance =
      some 60 ∧
    (get_account (transfer ⟨[], [⟨"A1", 1, "Checking", "RUB", 100, 0⟩,
        ⟨"B1", 2, "Checking", "RUB", 0, 0⟩], [], 1,
        [false, false, true, true]⟩ "A1" "B1" 40 "").2 "B1").map Account.balance =
      some 0 ∧
    (transfer ⟨[], [⟨"A1", 1, "Checking", "RUB", 100, 0⟩,
        ⟨"B1", 2, "Checking", "RUB", 0, 0⟩], [], 1,
        [false, false, true]⟩ "A1" "B1" 40 "").1 =
      (transfer ⟨[], [⟨"A1", 1, "Checking", "RUB", 100, 0⟩,
        ⟨"B1", 2, "Checking", "RUB", 0, 0⟩], [], 1,
        [false, false, true, true]⟩ "A1" "B1" 40 "").1 := by
  have hw : withdraw (⟨[], [⟨"A1", 1, "Checking", "RUB", 100, 0⟩,
      ⟨"B1", 2, "Checking", "RUB", 0, 0⟩], [], 1,
      [false, false, true, true]⟩ : DB) "A1" 40
      ("Перевод на счет " ++ "B1" ++ ". " ++ "") =
      (.ok (), ⟨[], [⟨"A1", 1, "Checking", "RUB", 100 + -40, 0⟩,
        ⟨"B1", 2, "Checking", "RUB", 0, 0⟩],
        [⟨"A1", "WITHDRAWAL", 40, "Перевод на счет B1. "⟩], 1, [true, true]⟩) :=
    withdraw_ok_cons (a := ⟨"A1", 1, "Checking", "RUB", 100, 0⟩) _
      (by norm_num) rfl (by norm_num) rfl
  have hd2 : deposit (⟨[], [⟨"A1", 1, "Checking", "RUB", 100 + -40, 0⟩,
      ⟨"B1", 2, "Checking", "RUB", 0, 0⟩],
      [⟨"A1", "WITHDRAWAL", 40, "Перевод на счет B1. "⟩], 1, [true, true]⟩ : DB)
      "B1" 40 ("Перевод со счета " ++ "A1" ++ ". " ++ "") =
      (.error .storageError, ⟨[], [⟨"A1", 1, "Checking", "RUB", 100 + -40, 0⟩,
        ⟨"B1", 2, "Checking", "RUB", 0, 0⟩],
        [⟨"A1", "WITHDRAWAL", 40, "Перевод на счет B1. "⟩], 1, [true]⟩) :=
    deposit_fault1 (a := ⟨"B1", 2, "Checking", "RUB", 0, 0⟩) _
      (by norm_num) rfl rfl
  have hd3 : deposit (⟨[], [⟨"A1", 1, "Checking", "RUB", 100 + -40, 0⟩,
      ⟨"B1", 2, "Checking", "RUB", 0, 0⟩],
      [⟨"A1", "WITHDRAWAL", 40, "Перевод на счет B1. "⟩], 1, [true]⟩ : DB)
      "A1" 40 "Откат перевода" =
      (.error .storageError, ⟨[], [⟨"A1", 1, "Checking", "RUB", 100 + -40, 0⟩,
        ⟨"B1", 2, "Checking", "RUB", 0, 0⟩],
        [⟨"A1", "WITHDRAWAL", 40, "Перевод на счет B1. "⟩], 1, []⟩) :=
    deposit_fault1 (a := ⟨"A1", 1, "Checking", "RUB", 100 + -40, 0⟩) _
      (by norm_num) rfl rfl
  have h1 : transfer (⟨[], [⟨"A1", 1, "Checking", "RUB", 100, 0⟩,
      ⟨"B1", 2, "Checking", "RUB", 0, 0⟩], [], 1,
      [false, false, true, true]⟩ : DB) "A1" "B1" 40 "" =
      (.error .transferFailed, ⟨[], [⟨"A1", 1, "Checking", "RUB", 100 + -40, 0⟩,
        ⟨"B1", 2, "Checking", "RUB", 0, 0⟩],
        [⟨"A1", "WITHDRAWAL", 40, "Перевод на счет B1. "⟩], 1, []⟩) := by
    unfold transfer
    rw [if_neg (by norm_num : ¬ (40 : ℚ) ≤ 0)]
    rw [show get_account (⟨[], [⟨"A1", 1, "Checking", "RUB", 100, 0⟩,
      ⟨"B1", 2, "Checking", "RUB", 0, 0⟩], [], 1,
      [false, false, true, true]⟩ : DB) "A1" =
        some ⟨"A1", 1, "Checking", "RUB", 100, 0⟩ from rfl]
    rw [show get_account (⟨[], [⟨"A1", 1, "Checking", "RUB", 100, 0⟩,
      ⟨"B1", 2, "Checking", "RUB", 0, 0⟩], [], 1,
      [false, false, true, true]⟩ : DB) "B1" =
        some ⟨"B1", 2, "Checking", "RUB", 0, 0⟩ from rfl]
    dsimp only
    rw [if_neg (show ¬ ("RUB" : String) ≠ "RUB" from not_not_intro rfl),
      if_neg (by norm_num : ¬ (100 : ℚ) + 0 < 40), hw]
    dsimp only
    rw [hd2]
    dsimp only
    rw [hd3]
  have hw' : withdraw (⟨[], [⟨"A1", 1, "Checking", "RUB", 100, 0⟩,
      ⟨"B1", 2, "Checking", "RUB", 0, 0⟩], [], 1,
      [false, false, true]⟩ : DB) "A1" 40
      ("Перевод на счет " ++ "B1" ++ ". " ++ "") =
      (.ok (), ⟨[], [⟨"A1", 1, "Checking", "RUB", 100 + -40, 0⟩,
        ⟨"B1", 2, "Checking", "RUB", 0, 0⟩],
        [⟨"A1", "WITHDRAWAL", 40, "Перевод на счет B1. "⟩], 1, [true]⟩) :=
    withdraw_ok_cons (a := ⟨"A1", 1, "Checking", "RUB", 100, 0⟩) _
      (by norm_num) rfl (by norm_num) rfl
  have hd2' : deposit (⟨[], [⟨"A1", 1, "Checking", "RUB", 100 + -40, 0⟩,
      ⟨"B1", 2, "Checking", "RUB", 0, 0⟩],
      [⟨"A1", "WITHDRAWAL", 40, "Перевод на счет B1. "⟩], 1, [true]⟩ : DB)
      "B1" 40 ("Перевод со счета " ++ "A1" ++ ". " ++ "") =
      (.error .storageError, ⟨[], [⟨"A1", 1, "Checking", "RUB", 100 + -40, 0⟩,
        ⟨"B1", 2, "Checking", "RUB", 0, 0⟩],
        [⟨"A1", "WITHDRAWAL", 40, "Перевод на счет B1. "⟩], 1, []⟩) :=
    deposit_fault1 (a := ⟨"B1", 2, "Checking", "RUB", 0, 0⟩) _
      (by norm_num) rfl rfl
  have h1' : (transfer (⟨[], [⟨"A1", 1, "Checking", "RUB", 100, 0⟩,
      ⟨"B1", 2, "Checking", "RUB", 0, 0⟩], [], 1,
      [false, false, true]⟩ : DB) "A1" "B1" 40 "").1 = .error .transferFailed := by
    unfold transfer
    rw [if_neg (by norm_num : ¬ (40 : ℚ) ≤ 0)]
    rw [show get_account (⟨[], [⟨"A1", 1, "Checking", "RUB", 100, 0⟩,
      ⟨"B1", 2, "Checking", "RUB", 0, 0⟩], [], 1,
      [false, false, true]⟩ : DB) "A1" =
        some ⟨"A1", 1, "Checking", "RUB", 100, 0⟩ from rfl]
    rw [show get_account (⟨[], [⟨"A1", 1, "Checking", "RUB", 100, 0⟩,
      ⟨"B1", 2, "Checking", "RUB", 0, 0⟩], [], 1,
      [false, false, true]⟩ : DB) "B1" =
        some ⟨"B1", 2, "Checking", "RUB", 0, 0⟩ from rfl]
    dsimp only
    rw [if_neg (show ¬ ("RUB" : String) ≠ "RUB" from not_not_intro rfl),
      if_neg (by norm_num : ¬ (100 : ℚ) + 0 < 40), hw']
    dsimp only
    rw [hd2']
  refine ⟨?_, ?_, ?_, ?_⟩
  · rw [h1]
  · rw [h1]
    show Option.map Account.balance
      (some ⟨"A1", 1, "Checking", "RUB", 100 + -40, 0⟩) = some 60
    norm_num
  · rw [h1]
    rfl
  · rw [h1', h1]

/-! ### Claim C5: the balance invariant -/

theorem invOk_of_accounts_eq {db db' : DB} (h : db'.accounts = db.accounts)
    (hinv : invOk db) : invOk db' := by
  unfold invOk at *
  rw [h]
  exact hinv

theorem invOk_updAccounts_add {l : List Account} {n : String} {x : ℚ}
    (hx : 0 ≤ x) (hinv : ∀ a ∈ l, -a.overdraftLimit ≤ a.balance) :
    ∀ b ∈ updAccounts l n x, -b.overdraftLimit ≤ b.balance := by
  intro b hb
  obtain ⟨a, ha, hbeq⟩ := mem_updAccounts hb
  subst hbeq
  by_cases h : a.accountNumber = n
  · rw [if_pos h]
    have := hinv a ha
    show -a.overdraftLimit ≤ a.balance + x
    linarith
  · rw [if_neg h]
    exact hinv a ha

theorem invOk_updAccounts_wd {l : List Account} {n : String} {x : ℚ} {a0 : Account}
    (hnd : (l.map Account.accountNumber).Nodup)
    (hfind : l.find? (fun v => v.accountNumber == n) = some a0)
    (hx : x ≤ a0.balance + a0.overdraftLimit)
    (hinv : ∀ a ∈ l, -a.overdraftLimit ≤ a.balance) :
    ∀ b ∈ updAccounts l n (-x), -b.overdraftLimit ≤ b.balance := by
  intro b hb
  obtain ⟨a, ha, hbeq⟩ := mem_updAccounts hb
  subst hbeq
  by_cases h : a.accountNumber = n
  · obtain rfl : a = a0 := find?_unique hnd hfind ha h
    rw [if_pos h]
    show -a.overdraftLimit ≤ a.balance + -x
    linarith
  · rw [if_neg h]
    exact hinv a ha

theorem invOk_deposit (db : DB) (n : String) (x : ℚ) (d : String)
    (hinv : invOk db) : invOk (deposit db n x d).2 := by
  unfold deposit
  by_cases h0 : x ≤ 0
  · rw [if_pos h0]
    exact hinv
  · rw [if_neg h0]
    cases hga : get_account db n with
    | none => exact hinv
    | some A =>
      dsimp only
      cases hp : popFault db with
      | mk f1 db1 =>
        have hacc1 : db1.accounts = db.accounts :=
          (congrArg (fun p => (Prod.snd p).accounts) hp).symm
        cases f1 with
        | true => exact invOk_of_accounts_eq hacc1 hinv
        | false =>
          dsimp only
          cases hp2 : popFault { db1 with accounts := updAccounts db1.accounts n x } with
          | mk f2 db3 =>
            have hacc3 : db3.accounts = updAccounts db1.accounts n x :=
              (congrArg (fun p => (Prod.snd p).accounts) hp2).symm
            have hinv3 : invOk db3 := by
              unfold invOk
              rw [hacc3, hacc1]
              exact invOk_updAccounts_add (le_of_lt (not_le.mp h0)) hinv
            cases f2 with
            | true => exact hinv3
            | false => exact invOk_of_accounts_eq rfl hinv3

theorem invOk_withdraw (db : DB) (n : String) (x : ℚ) (d : String)
    (hnd : uniqueNumbers db) (hinv : invOk db) : invOk (withdraw db n x d).2 := by
  unfold withdraw
  by_cases h0 : x ≤ 0
  · rw [if_pos h0]
    exact hinv
  · rw [if_neg h0]
    cases hga : get_account db n with
    | none => exact hinv
    | some A =>
      dsimp only
      by_cases hav : A.balance + A.overdraftLimit < x
      · rw [if_pos hav]
        exact hinv
      · rw [if_neg hav]
        cases hp : popFault db with
        | mk f1 db1 =>
          have hacc1 : db1.accounts = db.accounts :=
            (congrArg (fun p => (Prod.snd p).accounts) hp).symm
          cases f1 with
          | true => exact invOk_of_accounts_eq hacc1 hinv
          | false =>
            dsimp only
            cases hp2 : popFault { db1 with accounts := updAccounts db1.accounts n (-x) } with
            | mk f2 db3 =>
              have hacc3 : db3.accounts = updAccounts db1.accounts n (-x) :=
                (congrArg (fun p => (Prod.snd p).accounts) hp2).symm
              have hinv3 : invOk db3 := by
                unfold invOk
                rw [hacc3, hacc1]
                exact invOk_updAccounts_wd hnd hga (not_lt.mp hav) hinv
              cases f2 with
              | true => exact hinv3
              | false => exact invOk_of_accounts_eq rfl hinv3

theorem invOk_create (db : DB) (n : String) (uid : Nat) (ty cur : String) (od : ℚ)
    (hod : 0 ≤ od) (hinv : invOk db) : invOk (create_account db n uid ty cur od).2 := by
  unfold create_account
  cases hp : popFault db with
  | mk f db1 =>
    have hacc1 : db1.accounts = db.accounts :=
      (congrArg (fun p => (Prod.snd p).accounts) hp).symm
    have hinv1 : invOk db1 := invOk_of_accounts_eq hacc1 hinv
    cases f with
    | true => exact hinv1
    | false =>
      dsimp only
      by_cases hex : (get_account db1 n).isSome
      · rw [if_pos hex]
        exact hinv1
      · rw [if_neg hex]
        unfold invOk
        intro b hb
        rcases List.mem_append.mp hb with h | h
        · exact hinv1 b h
        · rw [List.mem_singleton] at h
          subst h
          show -od ≤ (0 : ℚ)
          linarith

theorem invOk_transfer (db : DB) (a b : String) (x : ℚ) (d : String)
    (hnd : uniqueNumbers db) (hinv : invOk db) : invOk (transfer db a b x d).2 := by
  unfold transfer
  by_cases h0 : x ≤ 0
  · rw [if_pos h0]
    exact hinv
  · rw [if_neg h0]
    cases hga : get_account db a with
    | none => exact hinv
    | some A =>
      cases hgb : get_account db b with
      | none => exact hinv
      | some B =>
        dsimp only
        by_cases hc : A.currency ≠ B.currency
        · rw [if_pos hc]
          exact hinv
        · rw [if_neg hc]
          by_cases hav : A.balance + A.overdraftLimit < x
          · rw [if_pos hav]
            exact hinv
          · rw [if_neg hav]
            cases hw : withdraw db a x ("Перевод на счет " ++ b ++ ". " ++ d) with
            | mk r1 db1 =>
              have hinv1 : invOk db1 := by
                have h := invOk_withdraw db a x
                  ("Перевод на счет " ++ b ++ ". " ++ d) hnd hinv
                rw [hw] at h
                exact h
              cases r1 with
              | error e => exact hinv1
              | ok u =>
                dsimp only
                cases hd : deposit db1 b x ("Перевод со счета " ++ a ++ ". " ++ d) with
                | mk r2 db2 =>
                  have hinv2 : invOk db2 := by
                    have h := invOk_deposit db1 b x
                      ("Перевод со счета " ++ a ++ ". " ++ d) hinv1
                    rw [hd] at h
                    exact h
                  cases r2 with
                  | ok v => exact hinv2
                  | error e2 => exact invOk_deposit db2 a x "Откат перевода" hinv2

/-- C5: the §3 invariant `balance ≥ -overdraft_limit` holds for a freshly
created account with non-negative overdraft limit, and — on a store whose
accounts all satisfy it and whose account numbers are unique (the primary
key) — it is preserved by every `deposit`, `withdraw` and `transfer`,
successful or failed, under every storage-fault schedule, including
`transfer`'s compensation path. -/
theorem overdraft_invariant_preserved (db : DB) :
    (∀ n uid ty cur od, 0 ≤ od → invOk db →
      invOk (create_account db n uid ty cur od).2) ∧
    (∀ n x d, invOk db → invOk (deposit db n x d).2) ∧
    (∀ n x d, uniqueNumbers db → invOk db → invOk (withdraw db n x d).2) ∧
    (∀ a b x d, uniqueNumbers db → invOk db → invOk (transfer db a b x d).2) :=
  ⟨fun n uid ty cur od hod hinv => invOk_create db n uid ty cur od hod hinv,
   fun n x d hinv => invOk_deposit db n x d hinv,
   fun n x d hnd hinv => invOk_withdraw db n x d hnd hinv,
   fun a b x d hnd hinv => invOk_transfer db a b x d hnd hinv⟩

/-- Witness for C5 on a concrete store with one account (balance 0,
overdraft 10): creation, deposit, an overdraft-using withdrawal, and a
self-transfer all preserve the invariant. -/
theorem overdraft_invariant_preserved_witness :
    invOk (create_account ⟨[], [⟨"A1", 1, "Checking", "RUB", 0, 10⟩], [], 1, []⟩
      "N2" 5 "Savings" "RUB" 3).2 ∧
    invOk (deposit ⟨[], [⟨"A1", 1, "Checking", "RUB", 0, 10⟩], [], 1, []⟩
      "A1" 5 "d").2 ∧
    invOk (withdraw ⟨[], [⟨"A1", 1, "Checking", "RUB", 0, 10⟩], [], 1, []⟩
      "A1" 8 "w").2 ∧
    invOk (transfer ⟨[], [⟨"A1", 1, "Checking", "RUB", 0, 10⟩], [], 1, []⟩
      "A1" "A1" 4 "t").2 := by
  have hinv : invOk ⟨[], [⟨"A1", 1, "Checking", "RUB", 0, 10⟩], [], 1, []⟩ := by
    unfold invOk
    intro a ha
    rw [List.mem_singleton] at ha
    subst ha
    norm_num
  have hnd : uniqueNumbers ⟨[], [⟨"A1", 1, "Checking", "RUB", 0, 10⟩], [], 1, []⟩ := by
    simp [uniqueNumbers]
  have h := overdraft_invariant_preserved
    ⟨[], [⟨"A1", 1, "Checking", "RUB", 0, 10⟩], [], 1, []⟩
  exact ⟨h.1 "N2" 5 "Savings" "RUB" 3 (by norm_num) hinv,
    h.2.1 "A1" 5 "d" hinv,
    h.2.2.1 "A1" 8 "w" hnd hinv,
    h.2.2.2 "A1" "A1" 4 "t" hnd hinv⟩

/-! ### Claim C6: balance = sum of deposits minus withdrawals -/

theorem deposit_nonpos (db : DB) (n : String) (x : ℚ) (d : String) (h : x ≤ 0) :
    deposit db n x d = (.error .invalidAmount, db) := by
  unfold deposit
  rw [if_pos h]

theorem withdraw_nonpos (db : DB) (n : String) (x : ℚ) (d : String) (h : x ≤ 0) :
    withdraw db n x d = (.error .invalidAmount, db) := by
  unfold withdraw
  rw [if_pos h]

theorem withdraw_insufficient {db : DB} {n : String} {x : ℚ} {A : Account}
    (d : String) (hA : get_account db n = some A) (h0 : ¬ x ≤ 0)
    (hlt : A.balance + A.overdraftLimit < x) :
    withdraw db n x d =
      (.error (.insufficientFunds (A.balance + A.overdraftLimit)), db) := by
  unfold withdraw
  rw [if_neg h0, hA]
  dsimp only
  rw [if_pos hlt]

theorem find?_append_of_none {α : Type} {p : α → Bool} {l1 l2 : List α}
    (h : l1.find? p = none) : (l1 ++ l2).find? p = l2.find? p := by
  induction l1 with
  | nil => rfl
  | cons a l ih =>
    have hpa : ¬ p a := by
      intro hpa
      rw [List.find?_cons_of_pos _ hpa] at h
      cases h
    rw [List.find?_cons_of_neg _ hpa] at h
    rw [List.cons_append, List.find?_cons_of_neg _ hpa]
    exact ih h

theorem create_account_ok {db : DB} {n : String} (uid : Nat) (ty cur : String)
    (od : ℚ) (hfresh : get_account db n = none) (hf : db.faults = []) :
    create_account db n uid ty cur od =
      (.ok n, { db with accounts := db.accounts ++ [⟨n, uid, ty, cur, 0, od⟩] }) := by
  unfold create_account
  rw [popFault_nil hf]
  dsimp only
  rw [hfresh]
  rfl

theorem rowsSum_append_one (ts : List Txn) (t : Txn) (n ty : String) :
    rowsSum (ts ++ [t]) n ty = rowsSum ts n ty +
      (if t.accountNumber == n && t.transactionType == ty then t.amount else 0) := by
  unfold rowsSum
  rw [List.filter_append, List.map_append, List.sum_append]
  congr 1
  by_cases h : (t.accountNumber == n && t.transactionType == ty) = true
  · rw [if_pos h]
    simp [List.filter_cons, h]
  · rw [if_neg h]
    simp [List.filter_cons, h]

theorem txnNet_dep {db' db : DB} (n : String) (x : ℚ) (d : String)
    (h : db'.transactions = db.transactions ++ [⟨n, "DEPOSIT", x, d⟩]) :
    txnNet db' n = txnNet db n + x := by
  unfold txnNet
  rw [h, rowsSum_append_one, rowsSum_append_one]
  rw [if_pos (by simp), if_neg (by simp)]
  ring

theorem txnNet_wd {db' db : DB} (n : String) (x : ℚ) (d : String)
    (h : db'.transactions = db.transactions ++ [⟨n, "WITHDRAWAL", x, d⟩]) :
    txnNet db' n = txnNet db n - x := by
  unfold txnNet
  rw [h, rowsSum_append_one, rowsSum_append_one]
  rw [if_neg (by simp), if_pos (by simp)]
  ring

theorem runOps_balance {n : String} (ops : List Op) (db : DB) (A : Account)
    (hA : get_account db n = some A) (hf : db.faults = [])
    (hok : allOk db n ops = true) :
    ∃ A2, get_account (runOps db n ops) n = some A2 ∧
      A2.balance = A.balance + opSum ops ∧
      txnNet (runOps db n ops) n = txnNet db n + opSum ops := by
  induction ops generalizing db A with
  | nil =>
    exact ⟨A, hA, by simp [opSum], by simp [runOps, opSum]⟩
  | cons op rest ih =>
    cases op with
    | dep x d =>
      by_cases hx : x ≤ 0
      · exfalso
        simp only [allOk, applyOp] at hok
        rw [deposit_nonpos db n x d hx] at hok
        simp at hok
      · have hx' : 0 < x := not_le.mp hx
        have hd := deposit_ok (a := A) d hx' hA hf
        simp only [allOk, applyOp] at hok
        rw [hd] at hok
        dsimp only at hok
        unfold runOps
        dsimp only [applyOp]
        rw [hd]
        dsimp only
        have hA1 : get_account { db with
            accounts := updAccounts db.accounts n x,
            transactions := db.transactions ++ [⟨n, "DEPOSIT", x, d⟩] } n =
            some { A with balance := A.balance + x } := by
          show (updAccounts db.accounts n x).find? (fun v => v.accountNumber == n) = _
          rw [find?_updAccounts_self,
            show db.accounts.find? (fun v => v.accountNumber == n) = some A from hA]
          rfl
        obtain ⟨A2, hA2, hbal, hnet⟩ := ih _ _ hA1 hf hok
        refine ⟨A2, hA2, ?_, ?_⟩
        · rw [hbal]
          show A.balance + x + opSum rest = A.balance + opSum (Op.dep x d :: rest)
          simp only [opSum]
          ring
        · rw [hnet, txnNet_dep n x d rfl]
          simp only [opSum]
          ring
    | wd x d =>
      by_cases hx : x ≤ 0
      · exfalso
        simp only [allOk, applyOp] at hok
        rw [withdraw_nonpos db n x d hx] at hok
        simp at hok
      · have hx' : 0 < x := not_le.mp hx
        by_cases hav : A.balance + A.overdraftLimit < x
        · exfalso
          simp only [allOk, applyOp] at hok
          rw [withdraw_insufficient d hA hx hav] at hok
          simp at hok
        · have hd := withdraw_ok (a := A) d hx' hA (not_lt.mp hav) hf
          simp only [allOk, applyOp] at hok
          rw [hd] at hok
          dsimp only at hok
          unfold runOps
          dsimp only [applyOp]
          rw [hd]
          dsimp only
          have hA1 : get_account { db with
              accounts := updAccounts db.accounts n (-x),
              transactions := db.transactions ++ [⟨n, "WITHDRAWAL", x, d⟩] } n =
              some { A with balance := A.balance + -x } := by
            show (updAccounts db.accounts n (-x)).find? (fun v => v.accountNumber == n) = _
            rw [find?_updAccounts_self,
              show db.accounts.find? (fun v => v.accountNumber == n) = some A from hA]
            rfl
          obtain ⟨A2, hA2, hbal, hnet⟩ := ih _ _ hA1 hf hok
          refine ⟨A2, hA2, ?_, ?_⟩
          · rw [hbal]
            show A.balance + -x + opSum rest = A.balance + opSum (Op.wd x d :: rest)
            simp only [opSum]
            ring
          · rw [hnet, txnNet_wd n x d rfl]
            simp only [opSum]
            ring

/-- C6: for an account freshly created by `create_account` (initial balance
0, no pre-existing transaction rows under its number) and any finite trace
of successful deposits and withdrawals against it, the final balance equals
the sum of the deposited amounts minus the sum of the withdrawn amounts,
and equals the sum over its DEPOSIT rows minus the sum over its WITHDRAWAL
rows. -/
theorem balance_eq_sum_of_ops_and_rows
    (db : DB) (n : String) (uid : Nat) (ty cur : String) (od : ℚ) (ops : List Op)
    (hfresh : get_account db n = none)
    (hftxn : ∀ t ∈ db.transactions, t.accountNumber ≠ n)
    (hf : db.faults = [])
    (hok : allOk (create_account db n uid ty cur od).2 n ops = true) :
    ∃ A, get_account (runOps (create_account db n uid ty cur od).2 n ops) n = some A ∧
      A.balance = opSum ops ∧
      A.balance = txnNet (runOps (create_account db n uid ty cur od).2 n ops) n := by
  have hc := create_account_ok uid ty cur od hfresh hf
  rw [hc] at hok ⊢
  dsimp only at hok ⊢
  have hA1 : get_account { db with
      accounts := db.accounts ++ [⟨n, uid, ty, cur, 0, od⟩] } n =
      some ⟨n, uid, ty, cur, 0, od⟩ := by
    show (db.accounts ++ [(⟨n, uid, ty, cur, 0, od⟩ : Account)]).find?
      (fun v => v.accountNumber == n) = _
    rw [find?_append_of_none hfresh, List.find?_cons_of_pos _ (by simp)]
  obtain ⟨A, hA, hbal, hnet⟩ := runOps_balance ops _ _ hA1 hf hok
  have h0 : txnNet { db with
      accounts := db.accounts ++ [⟨n, uid, ty, cur, 0, od⟩] } n = 0 := by
    unfold txnNet rowsSum
    have hfil : ∀ ty', db.transactions.filter
        (fun t => t.accountNumber == n && t.transactionType == ty') = [] :=
      fun ty' => List.filter_eq_nil_iff.mpr fun t ht => by simp [hftxn t ht]
    show (((db.transactions.filter _).map Txn.amount).sum : ℚ) -
      ((db.transactions.filter _).map Txn.amount).sum = 0
    rw [hfil, hfil]
    simp
  refine ⟨A, hA, ?_, ?_⟩
  · rw [hbal]
    show (0 : ℚ) + opSum ops = opSum ops
    ring
  · rw [hbal, hnet, h0]

/-- Witness for C6 on the spec's own scenario: create with overdraft 5000,
deposit 10000, withdraw 12000 (into overdraft); the final balance is
−2000 = 10000 − 12000, both as the sum of the operations and as the sum of
the DEPOSIT rows minus the WITHDRAWAL rows. -/
theorem balance_eq_sum_of_ops_and_rows_witness :
    ∃ A, get_account (runOps (create_account ⟨[], [], [], 1, []⟩
        "40817810123456789" 1 "Checking" "RUB" 5000).2 "40817810123456789"
        [.dep 10000 "Начальный взнос", .wd 12000 ""]) "40817810123456789" = some A ∧
      A.balance = opSum [.dep 10000 "Начальный взнос", .wd 12000 ""] ∧
      A.balance = txnNet (runOps (create_account ⟨[], [], [], 1, []⟩
        "40817810123456789" 1 "Checking" "RUB" 5000).2 "40817810123456789"
        [.dep 10000 "Начальный взнос", .wd 12000 ""]) "40817810123456789" := by
  refine balance_eq_sum_of_ops_and_rows ⟨[], [], [], 1, []⟩ "40817810123456789"
    1 "Checking" "RUB" 5000 [.dep 10000 "Начальный взнос", .wd 12000 ""]
    rfl (by simp) rfl ?_
  norm_num [allOk, applyOp, create_account, popFault, get_account, deposit,
    withdraw, updAccounts, appendTxn]

end BankSystem
